import Mathlib

/-!
Verification of the planin-back signaling server (src/server.js).

The server keeps three pieces of in-memory state:
  - ipRequestCounts : a JS Map from client address to request count (rate limiter);
  - connectedPeers  : a JS Set of peer ids;
  - peerTimestamps  : a JS Map from peer id to the last recorded activity time.

JS Maps and Sets are modelled as association lists and ordered duplicate-free
lists, matching insertion-order semantics: Map.set replaces the value in place
for an existing key and appends for a new one; Set.add is a no-op for a present
element; Map.delete and Set.delete remove the key and are no-ops when absent.
-/

namespace Planin

/-- JS Map.get: first (and only, in reachable states) binding of the key. -/
def mapLookup : List (String × Nat) → String → Option Nat
  | [], _ => none
  | (k, v) :: rest, key => if k = key then some v else mapLookup rest key

/-- JS Map.set: replace the value in place if the key is present, append otherwise. -/
def mapSet : List (String × Nat) → String → Nat → List (String × Nat)
  | [], key, v => [(key, v)]
  | (k, w) :: rest, key, v =>
      if k = key then (key, v) :: rest else (k, w) :: mapSet rest key v

/-- JS Set.add: no-op when the element is present, append otherwise. -/
def setAdd (l : List String) (id : String) : List String :=
  if id ∈ l then l else l ++ [id]

theorem mapLookup_set_self (m : List (String × Nat)) (k : String) (v : Nat) :
    mapLookup (mapSet m k v) k = some v := by
  induction m with
  | nil => simp [mapSet, mapLookup]
  | cons p rest ih =>
      obtain ⟨k₀, v₀⟩ := p
      by_cases h : k₀ = k
      · simp [mapSet, h, mapLookup]
      · simp [mapSet, h, mapLookup, ih]

theorem mapLookup_set_ne (m : List (String × Nat)) (k k₁ : String) (v : Nat)
    (h : k₁ ≠ k) : mapLookup (mapSet m k₁ v) k = mapLookup m k := by
  induction m with
  | nil => simp [mapSet, mapLookup, h]
  | cons p rest ih =>
      obtain ⟨k₀, v₀⟩ := p
      by_cases h₀ : k₀ = k₁
      · subst h₀
        simp [mapSet, mapLookup, h]
      · simp [mapSet, h₀, mapLookup, ih]

theorem mapLookup_eq_none_iff (m : List (String × Nat)) (k : String) :
    mapLookup m k = none ↔ ∀ p ∈ m, p.1 ≠ k := by
  induction m with
  | nil => simp [mapLookup]
  | cons p rest ih =>
      obtain ⟨k₀, v₀⟩ := p
      by_cases h : k₀ = k
      · simp [mapLookup, h]
      · simp [mapLookup, h, ih]

/-!
Rate limiter (src/server.js lines 37-63, identically in src/unnamed/part_002
lines 30-56, with a different ceiling constant).

  function rateLimiter(req, res, next) accesses the shared Map ipRequestCounts:
  if the address is absent it stores 1 and passes the request on; if present
  with count at least MAX_REQUESTS_PER_HOUR it answers 429 without touching the
  map; otherwise it increments the count and passes the request on.

rlAllow returns the boolean decision (true = pass through) together with the
updated counter map. The ceiling is a parameter named limit, standing for
MAX_REQUESTS_PER_HOUR (200 in server.js, 100 in part_002).
-/

/-- One rate limiter decision for one request from the given address. -/
def rlAllow (limit : Nat) (counts : List (String × Nat)) (ip : String) :
    Bool × List (String × Nat) :=
  match mapLookup counts ip with
  | none => (true, mapSet counts ip 1)
  | some c => if limit ≤ c then (false, counts) else (true, mapSet counts ip (c + 1))

/-- Fold rlAllow over a list of requests (each element is the client address),
keeping only the final counter map. -/
def rlRun (limit : Nat) (counts : List (String × Nat)) : List String → List (String × Nat)
  | [] => counts
  | ip :: rest => rlRun limit (rlAllow limit counts ip).2 rest

/-- The interval handler at lines 42-44: ipRequestCounts.clear(). -/
def rlReset (_counts : List (String × Nat)) : List (String × Nat) := []

/-- Number of requests made by the given address in a request list. -/
def countAddr (ip : String) : List String → Nat
  | [] => 0
  | r :: rest => (if r = ip then 1 else 0) + countAddr ip rest

/-- Closed form of one address entry of the counter map after j requests from
that address: absent before the first request, then min j limit. -/
def rlPure (limit j : Nat) : Option Nat :=
  if j = 0 then none else some (min j limit)

theorem rlAllow_lookup_other (limit : Nat) (counts : List (String × Nat))
    (ip ip₁ : String) (h : ip₁ ≠ ip) :
    mapLookup (rlAllow limit counts ip₁).2 ip = mapLookup counts ip := by
  unfold rlAllow
  cases hl : mapLookup counts ip₁ with
  | none => simpa using mapLookup_set_ne counts ip ip₁ 1 h
  | some c =>
      by_cases hc : limit ≤ c
      · simp [hc]
      · simpa [hc] using mapLookup_set_ne counts ip ip₁ (c + 1) h

theorem rlAllow_lookup_self (limit : Nat) (counts : List (String × Nat))
    (ip : String) (j : Nat) (hN : 1 ≤ limit)
    (h : mapLookup counts ip = rlPure limit j) :
    mapLookup (rlAllow limit counts ip).2 ip = rlPure limit (j + 1) := by
  unfold rlAllow
  rcases Nat.eq_zero_or_pos j with hj | hj
  · subst hj
    simp only [rlPure, if_pos rfl] at h
    simp [h, mapLookup_set_self, rlPure, Nat.min_eq_left hN]
  · have hj' : j ≠ 0 := Nat.pos_iff_ne_zero.mp hj
    simp only [rlPure, if_neg hj'] at h
    rw [h]
    by_cases hc : limit ≤ min j limit
    · have hlim : limit ≤ j := (Nat.le_min.mp hc).1
      have hmin : min j limit = limit := Nat.min_eq_right hlim
      have hmin' : min (j + 1) limit = limit :=
        Nat.min_eq_right (Nat.le_succ_of_le hlim)
      simp [hc, rlPure, hmin, hmin', h]
    · have hlt : min j limit < limit := Nat.lt_of_not_le hc
      have hjlt : j < limit := by
        by_contra hge
        push_neg at hge
        rw [Nat.min_eq_right hge] at hlt
        exact Nat.lt_irrefl _ hlt
      have hmin : min j limit = j := Nat.min_eq_left (Nat.le_of_lt hjlt)
      have hmin' : min (j + 1) limit = j + 1 := Nat.min_eq_left hjlt
      simp [hc, hmin, Nat.not_le.mpr hjlt, mapLookup_set_self, rlPure, hmin']

theorem rlRun_lookup (limit : Nat) (hN : 1 ≤ limit) (ip : String) :
    ∀ (reqs : List String) (counts : List (String × Nat)) (j : Nat),
      mapLookup counts ip = rlPure limit j →
      mapLookup (rlRun limit counts reqs) ip = rlPure limit (j + countAddr ip reqs) := by
  intro reqs
  induction reqs with
  | nil => intro counts j h; simpa [rlRun, countAddr] using h
  | cons r rest ih =>
      intro counts j h
      by_cases hr : r = ip
      · subst hr
        have hstep := rlAllow_lookup_self limit counts r j hN h
        have := ih (rlAllow limit counts r).2 (j + 1) hstep
        simpa [rlRun, countAddr, Nat.add_comm, Nat.add_assoc, Nat.add_left_comm] using this
      · have hstep : mapLookup (rlAllow limit counts r).2 ip = rlPure limit j := by
          rw [rlAllow_lookup_other limit counts ip r hr, h]
        have := ih (rlAllow limit counts r).2 j hstep
        simpa [rlRun, countAddr, hr] using this

theorem rlAllow_false_same (limit : Nat) (counts : List (String × Nat)) (ip : String)
    (h : (rlAllow limit counts ip).1 = false) :
    (rlAllow limit counts ip).2 = counts := by
  unfold rlAllow at h ⊢
  cases hl : mapLookup counts ip with
  | none =>
      rw [hl] at h
      simp at h
  | some c =>
      rw [hl] at h
      by_cases hc : limit ≤ c
      · simp [hc]
      · simp [hc] at h

/-- Claim C1: starting from an empty counter map, after any sequence of requests
pre (from arbitrary addresses), the next rateLimiter decision for address ip is
to pass the request through exactly when fewer than limit requests from ip
occurred in pre. Hence the first limit calls for an address return true, the
following calls in the same window return false, and calls for other addresses
have no influence on the decision. The hypothesis 1 <= limit holds for both
configured ceilings (200 in server.js, 100 in part_002). -/
theorem rateLimiter_firstN (limit : Nat) (hN : 1 ≤ limit)
    (pre : List String) (ip : String) :
    (rlAllow limit (rlRun limit [] pre) ip).1 = decide (countAddr ip pre < limit) := by
  have h0 : mapLookup ([] : List (String × Nat)) ip = rlPure limit 0 := by
    simp [mapLookup, rlPure]
  have hl := rlRun_lookup limit hN ip pre [] 0 h0
  rw [Nat.zero_add] at hl
  unfold rlAllow
  rw [hl]
  rcases Nat.eq_zero_or_pos (countAddr ip pre) with hj | hj
  · rw [hj]
    simp [rlPure, Nat.lt_of_lt_of_le Nat.zero_lt_one hN]
  · have hj' : countAddr ip pre ≠ 0 := Nat.pos_iff_ne_zero.mp hj
    simp only [rlPure, if_neg hj']
    by_cases hc : limit ≤ min (countAddr ip pre) limit
    · have hlim : limit ≤ countAddr ip pre := (Nat.le_min.mp hc).1
      simp [hc, Nat.not_lt.mpr hlim]
    · have hlt : min (countAddr ip pre) limit < limit := Nat.lt_of_not_le hc
      have hjlt : countAddr ip pre < limit := by
        by_contra hge
        push_neg at hge
        rw [Nat.min_eq_right hge] at hlt
        exact Nat.lt_irrefl _ hlt
      simp [hc, hjlt]

theorem rateLimiter_firstN_witness :
    1 ≤ 2 ∧ (rlAllow 2 (rlRun 2 [] ["a", "a", "b"]) "a").1
        = decide (countAddr "a" ["a", "a", "b"] < 2) :=
  ⟨by decide, rateLimiter_firstN 2 (by decide) ["a", "a", "b"] "a"⟩

/-- Claim C7: the periodic reset (ipRequestCounts.clear() at lines 42-44 of
server.js) empties the whole counter map at once: afterwards every address has
no stored count, and the next rateLimiter call for any address passes. -/
theorem rateLimit_reset_allows (limit : Nat) (counts : List (String × Nat)) (ip : String) :
    mapLookup (rlReset counts) ip = none ∧ (rlAllow limit (rlReset counts) ip).1 = true := by
  constructor
  · simp [rlReset, mapLookup]
  · simp [rlReset, rlAllow, mapLookup]

/-- Claim C9: in every state reachable from the empty counter map by a sequence
of requests, every stored per-address count is at most the ceiling, and a
rejected call leaves the counter map unchanged (the 429 branch returns before
the increment). The hypothesis 1 <= limit holds for both configured ceilings. -/
theorem rateLimiter_count_bounded (limit : Nat) (hN : 1 ≤ limit)
    (reqs : List String) (ip : String) :
    (∀ c, mapLookup (rlRun limit [] reqs) ip = some c → c ≤ limit) ∧
    ((rlAllow limit (rlRun limit [] reqs) ip).1 = false →
      (rlAllow limit (rlRun limit [] reqs) ip).2 = rlRun limit [] reqs) := by
  refine ⟨?_, fun hf => rlAllow_false_same limit _ ip hf⟩
  intro c hc
  have h0 : mapLookup ([] : List (String × Nat)) ip = rlPure limit 0 := by
    simp [mapLookup, rlPure]
  have hl := rlRun_lookup limit hN ip reqs [] 0 h0
  rw [Nat.zero_add] at hl
  rw [hl] at hc
  unfold rlPure at hc
  by_cases hj : countAddr ip reqs = 0
  · simp [hj] at hc
  · rw [if_neg hj] at hc
    have : min (countAddr ip reqs) limit = c := Option.some.inj hc
    exact this ▸ Nat.min_le_right _ _

theorem rateLimiter_count_bounded_witness :
    1 ≤ 1 ∧ 1 ≤ 1 ∧
      (rlAllow 1 (rlRun 1 [] ["a", "a"]) "a").2 = rlRun 1 [] ["a", "a"] :=
  ⟨by decide,
   (rateLimiter_count_bounded 1 (by decide) ["a", "a"] "a").1 1 (by decide),
   (rateLimiter_count_bounded 1 (by decide) ["a", "a"] "a").2 (by decide)⟩

/-!
Peer registry (src/server.js lines 33-34): connectedPeers is a JS Set of ids
and peerTimestamps a JS Map from id to the time recorded for that peer. The
rate limiter map lives alongside them; the whole mutable server state is the
triple below.
-/

structure ServerState where
  rl : List (String × Nat)
  peers : List String
  timestamps : List (String × Nat)
deriving DecidableEq

def emptyState : ServerState := ⟨[], [], []⟩

/-- handlePeerConnection (src/server.js lines 122-136): on the connection event
the id is added to connectedPeers and peerTimestamps records Date.now(). The
remaining lines only log diagnostics. There is no duplicate-id check. -/
def handlePeerConnection (s : ServerState) (id : String) (now : Nat) : ServerState :=
  { s with peers := setAdd s.peers id, timestamps := mapSet s.timestamps id now }

/-- handlePeerDisconnect (src/server.js lines 138-143): the id is deleted from
connectedPeers and from peerTimestamps; JS Set.delete and Map.delete are no-ops
on absent keys and never throw. -/
def handlePeerDisconnect (s : ServerState) (id : String) : ServerState :=
  { s with peers := s.peers.filter (fun x => !(x == id)),
           timestamps := s.timestamps.filter (fun p => !(p.1 == id)) }

/-- The staleness test of the cleanup interval (src/server.js line 176):
now - timestamp > PEER_INACTIVE_TIMEOUT, with truncated subtraction standing
for the JS subtraction of two non-negative clock readings. -/
def isStale (now threshold t : Nat) : Bool := decide (threshold < now - t)

/-- Ids of the timestamp entries the sweep classifies as stale. -/
def staleIds (now threshold : Nat) (ts : List (String × Nat)) : List String :=
  (ts.filter (fun p => isStale now threshold p.2)).map Prod.fst

/-- The cleanup interval body (src/server.js lines 171-187): iterate over
peerTimestamps and, for each entry older than the threshold, delete the id
from connectedPeers and from peerTimestamps. Nothing else is touched: the
handler holds no connection objects. -/
def sweep (now threshold : Nat) (s : ServerState) : ServerState :=
  { s with
    peers := s.peers.filter (fun id => !(decide (id ∈ staleIds now threshold s.timestamps))),
    timestamps := s.timestamps.filter (fun p => !(isStale now threshold p.2)) }

/-!
PeerJS server events. src/server.js lines 145-146 attach repository handlers
for exactly two events of the external peer library: connection and
disconnect. Inbound data frames from a registered peer are relayed inside the
peer library itself; no repository code runs for them, so a frame event leaves
the repository state (connectedPeers, peerTimestamps, ipRequestCounts)
unchanged. The frame constructor below records such an event together with the
clock reading at which it arrives.
-/

inductive PeerEvent where
  | connection (id : String) (now : Nat)
  | disconnect (id : String)
  | frame (id : String) (now : Nat)
deriving DecidableEq

def stepEvent (s : ServerState) : PeerEvent → ServerState
  | .connection id now => handlePeerConnection s id now
  | .disconnect id => handlePeerDisconnect s id
  | .frame _ _ => s

/-- The connections field of the /status response (src/server.js lines
152-158): connectedPeers.size. -/
def statusConnections (s : ServerState) : Nat := s.peers.length

/-!
HTTP edge. Every route is behind app.use(rateLimiter) (line 110). A request
carries the client address used by the limiter and the route it targets; the
routes that matter for the registry are /status (read-only), the root text
route, and the /peerjs path whose upgrade leads to a connection event.
-/

inductive Route where
  | status
  | root
  | peerjsConnect (id : String) (now : Nat)
deriving DecidableEq

structure Request where
  ip : String
  route : Route
deriving DecidableEq

inductive Response where
  | throttled
  | statusJson (connections : Nat)
  | text
  | upgraded
deriving DecidableEq

/-- One HTTP request through the middleware chain: the rate limiter runs
first; when it rejects it answers 429 and never calls next(), so no route
handler runs; otherwise the route handler runs on the updated counter map. -/
def handleRequest (limit : Nat) (s : ServerState) (req : Request) :
    Response × ServerState :=
  match rlAllow limit s.rl req.ip with
  | (false, counts) => (Response.throttled, { s with rl := counts })
  | (true, counts) =>
      match req.route with
      | Route.status =>
          (Response.statusJson (statusConnections { s with rl := counts }),
           { s with rl := counts })
      | Route.root => (Response.text, { s with rl := counts })
      | Route.peerjsConnect id now =>
          (Response.upgraded, handlePeerConnection { s with rl := counts } id now)

/-!
Transport connections. The repository stores no connection handles: the
registry keeps only ids and timestamps. To talk about whether an evicted
peer has an open transport connection, the world below pairs the server
state with the transport-level open flags, which only the external peer
library manipulates; no repository code reads or writes them, so the sweep
acts on the server component alone.
-/

structure World where
  server : ServerState
  connOpen : List (String × Bool)
deriving DecidableEq

/-- A sweep run viewed on the whole world: the cleanup interval body touches
only connectedPeers and peerTimestamps and closes nothing. -/
def sweepWorld (now threshold : Nat) (w : World) : World :=
  { w with server := sweep now threshold w.server }

theorem mem_setAdd_self (l : List String) (id : String) : id ∈ setAdd l id := by
  unfold setAdd
  by_cases h : id ∈ l
  · simp [h]
  · simp [h]

theorem setAdd_of_mem (l : List String) (id : String) (h : id ∈ l) : setAdd l id = l := by
  simp [setAdd, h]

theorem setAdd_idem (l : List String) (id : String) :
    setAdd (setAdd l id) id = setAdd l id :=
  setAdd_of_mem _ _ (mem_setAdd_self l id)

theorem sweep_timestamps_fresh (now threshold : Nat) (s : ServerState)
    (id : String) (t : Nat)
    (h : (id, t) ∈ (sweep now threshold s).timestamps) : now - t ≤ threshold := by
  simp only [sweep, List.mem_filter] at h
  have h2 := h.2
  simp only [isStale, Bool.not_eq_true', decide_eq_false_iff_not] at h2
  exact Nat.not_lt.mp h2

theorem sweep_removes_stale_ts (now threshold : Nat) (s : ServerState)
    (id : String) (t : Nat) (hstale : threshold < now - t) :
    (id, t) ∉ (sweep now threshold s).timestamps := by
  intro h
  have := sweep_timestamps_fresh now threshold s id t h
  omega

theorem sweep_removes_stale_peer (now threshold : Nat) (s : ServerState)
    (id : String) (t : Nat) (hmem : (id, t) ∈ s.timestamps)
    (hstale : threshold < now - t) :
    id ∉ (sweep now threshold s).peers := by
  intro h
  simp only [sweep, List.mem_filter, Bool.not_eq_true', decide_eq_false_iff_not] at h
  apply h.2
  simp only [staleIds, List.mem_map]
  refine ⟨(id, t), ?_, rfl⟩
  simp only [List.mem_filter]
  exact ⟨hmem, by simp [isStale, hstale]⟩

/-- Claim C2: after a sweeper run at time now with the configured inactivity
threshold, every remaining timestamp entry satisfies now - t <= threshold, and
every entry whose inactivity strictly exceeds the threshold has been removed
both from peerTimestamps and from connectedPeers. -/
theorem sweep_liveness_invariant (now threshold : Nat) (s : ServerState) :
    (∀ id t, (id, t) ∈ (sweep now threshold s).timestamps → now - t ≤ threshold) ∧
    (∀ id t, (id, t) ∈ s.timestamps → threshold < now - t →
      (id, t) ∉ (sweep now threshold s).timestamps ∧
      id ∉ (sweep now threshold s).peers) :=
  ⟨fun id t h => sweep_timestamps_fresh now threshold s id t h,
   fun id t hm hs => ⟨sweep_removes_stale_ts now threshold s id t hs,
                      sweep_removes_stale_peer now threshold s id t hm hs⟩⟩

def sweepEx : ServerState := ⟨[], ["a", "b"], [("a", 8), ("b", 0)]⟩

theorem sweep_liveness_invariant_witness :
    (10 - 8 ≤ 5) ∧
      (("b", 0) ∉ (sweep 10 5 sweepEx).timestamps ∧
        "b" ∉ (sweep 10 5 sweepEx).peers) :=
  ⟨(sweep_liveness_invariant 10 5 sweepEx).1 "a" 8 (by decide),
   (sweep_liveness_invariant 10 5 sweepEx).2 "b" 0 (by decide) (by decide)⟩

/-- Claim C3, checked at the failing input: peer a registers at time 0, an
inbound frame from a arrives at time 5, yet the recorded lastActiveAt for a is
still 0. The repository writes peerTimestamps only in handlePeerConnection
(src/server.js line 125); no handler runs on inbound frames, so the timestamp
is never updated on activity, contradicting both the spec sentence and the
comment at line 34 that the map monitors peer activity. -/
theorem frame_does_not_update_lastActive :
    mapLookup (stepEvent (stepEvent emptyState (PeerEvent.connection "a" 0))
        (PeerEvent.frame "a" 5)).timestamps "a" = some 0 := by
  decide

/-- Claim C4, counterexample: with peer a already registered (at time 0), a
second connection event for the same id a at time 5 is not rejected: the
handler runs to completion, keeps a registered, and overwrites the stored
timestamp with the new time 5 — the existing record is replaced, not kept. -/
theorem duplicate_register_not_rejected :
    (stepEvent (stepEvent emptyState (PeerEvent.connection "a" 0))
        (PeerEvent.connection "a" 5)).peers = ["a"] ∧
    mapLookup (stepEvent (stepEvent emptyState (PeerEvent.connection "a" 0))
        (PeerEvent.connection "a" 5)).timestamps "a" = some 5 := by
  decide

/-- Claim C4 as amended: a registration with an id already present does not
fail and is not rejected; it leaves the peer-id set unchanged and overwrites
the stored timestamp with the new registration time. Duplicate-id rejection,
if any, happens inside the external peer library, not in repository code. -/
theorem register_duplicate_overwrites (s : ServerState) (id : String) (t t' : Nat) :
    (handlePeerConnection (handlePeerConnection s id t) id t').peers
        = (handlePeerConnection s id t).peers ∧
    mapLookup (handlePeerConnection (handlePeerConnection s id t) id t').timestamps id
        = some t' := by
  constructor
  · simp [handlePeerConnection, setAdd_idem]
  · simp [handlePeerConnection, mapLookup_set_self]

def staleWorld : World := ⟨⟨[], ["a"], [("a", 0)]⟩, [("a", true)]⟩

/-- Claim C5, counterexample: peer a is stale (registered at time 0, sweep at
time 100 with threshold 5) and its transport connection is open; the sweep
evicts a from the registry but the connection flag is untouched — eviction is
exactly a registry deletion that leaves the transport connection open. -/
theorem evicted_connection_left_open :
    "a" ∉ (sweepWorld 100 5 staleWorld).server.peers ∧
    (sweepWorld 100 5 staleWorld).connOpen = [("a", true)] := by
  decide

/-- Claim C5 as amended: a sweeper run removes every stale record from the
peer set and the timestamp map, and does nothing else: it holds no connection
handles and never closes a transport connection, which is left to the external
peer library and its alive timeout. -/
theorem sweep_registry_only (now threshold : Nat) (w : World) :
    (sweepWorld now threshold w).connOpen = w.connOpen ∧
    (∀ id t, (id, t) ∈ w.server.timestamps → threshold < now - t →
      id ∉ (sweepWorld now threshold w).server.peers ∧
      (id, t) ∉ (sweepWorld now threshold w).server.timestamps) :=
  ⟨rfl,
   fun id t hm hs => ⟨sweep_removes_stale_peer now threshold w.server id t hm hs,
                      sweep_removes_stale_ts now threshold w.server id t hs⟩⟩

theorem sweep_registry_only_witness :
    (sweepWorld 100 5 staleWorld).connOpen = staleWorld.connOpen ∧
    "a" ∉ (sweepWorld 100 5 staleWorld).server.peers :=
  ⟨(sweep_registry_only 100 5 staleWorld).1,
   ((sweep_registry_only 100 5 staleWorld).2 "a" 0 (by decide) (by decide)).1⟩

/-- Claim C6: handlePeerDisconnect is idempotent — running it twice for the
same id gives the same state as running it once — and removing an id that is
not registered (absent from the peer set and from the timestamp map) changes
nothing; the embedded operation is total, matching the fact that JS Set.delete
and Map.delete never throw. -/
theorem remove_idempotent (s : ServerState) (id : String) :
    handlePeerDisconnect (handlePeerDisconnect s id) id = handlePeerDisconnect s id ∧
    (id ∉ s.peers → mapLookup s.timestamps id = none →
      handlePeerDisconnect s id = s) := by
  constructor
  · simp [handlePeerDisconnect, List.filter_filter]
  · intro hp ht
    have hps : s.peers.filter (fun x => !(x == id)) = s.peers := by
      apply List.filter_eq_self.mpr
      intro a ha
      simp only [Bool.not_eq_true', beq_eq_false_iff_ne, ne_eq]
      exact fun heq => hp (heq ▸ ha)
    have hts : s.timestamps.filter (fun p => !(p.1 == id)) = s.timestamps := by
      apply List.filter_eq_self.mpr
      intro p hpmem
      simp only [Bool.not_eq_true', beq_eq_false_iff_ne, ne_eq]
      exact (mapLookup_eq_none_iff s.timestamps id).mp ht p hpmem
    simp [handlePeerDisconnect, hps, hts]

def regEx : ServerState := ⟨[], ["b"], [("b", 1)]⟩

theorem remove_idempotent_witness :
    handlePeerDisconnect (handlePeerDisconnect regEx "a") "a"
        = handlePeerDisconnect regEx "a" ∧
    handlePeerDisconnect regEx "a" = regEx :=
  ⟨(remove_idempotent regEx "a").1,
   (remove_idempotent regEx "a").2 (by decide) (by decide)⟩

/-- Claim C8: a request the rate limiter rejects is answered 429 before next()
is called, so no route handler runs: the peer set and the timestamp map after
the request are the ones from before it. -/
theorem throttled_preserves_registry (limit : Nat) (s : ServerState) (req : Request)
    (h : (handleRequest limit s req).1 = Response.throttled) :
    (handleRequest limit s req).2.peers = s.peers ∧
    (handleRequest limit s req).2.timestamps = s.timestamps := by
  unfold handleRequest at h ⊢
  rcases hrl : rlAllow limit s.rl req.ip with ⟨ok, counts⟩
  cases ok
  · exact ⟨rfl, rfl⟩
  · cases hroute : req.route
    all_goals rw [hroute] at h
    all_goals rw [hrl] at h
    all_goals simp at h

def throttledState : ServerState := ⟨[("a", 1)], ["q"], [("q", 3)]⟩

theorem throttled_preserves_registry_witness :
    (handleRequest 1 throttledState ⟨"a", Route.peerjsConnect "p" 7⟩).2.peers
        = throttledState.peers ∧
    (handleRequest 1 throttledState ⟨"a", Route.peerjsConnect "p" 7⟩).2.timestamps
        = throttledState.timestamps :=
  throttled_preserves_registry 1 throttledState ⟨"a", Route.peerjsConnect "p" 7⟩
    (by decide)

/-- Claim C10: registering an id that is already present leaves the set of
registered ids unchanged; after two registrations of the same id from the
empty state the /status connections count is 1; and a single disconnect of
that id removes it entirely from both parts of the registry. -/
theorem register_set_idempotent (s : ServerState) (id : String) (t t' : Nat) :
    (handlePeerConnection (handlePeerConnection s id t) id t').peers
        = (handlePeerConnection s id t).peers ∧
    statusConnections (handlePeerConnection (handlePeerConnection emptyState id t) id t')
        = 1 ∧
    (handlePeerDisconnect
        (handlePeerConnection (handlePeerConnection emptyState id t) id t') id).peers
        = [] ∧
    (handlePeerDisconnect
        (handlePeerConnection (handlePeerConnection emptyState id t) id t') id).timestamps
        = [] := by
  refine ⟨by simp [handlePeerConnection, setAdd_idem], ?_, ?_, ?_⟩
  · simp [statusConnections, handlePeerConnection, emptyState, setAdd]
  · simp [handlePeerDisconnect, handlePeerConnection, emptyState, setAdd]
  · simp [handlePeerDisconnect, handlePeerConnection, emptyState, setAdd, mapSet]

end Planin
